import Mathlib

/-!
Shallow embedding of the dominoes score tracker (React + TypeScript single-file app).
The embedded functions mirror, line by line, the state-handling functions of the
source component: `isValidState`, `loadInitialState`, `saveOnboarding`, `saveSettings`,
`addRound`, `undoRound`, `resetCurrentGame`, `exportData`, `importData`.
-/

namespace Dominoes

/-- A completed round (`type Round` in the source). JS numbers holding
non-negative integers are embedded as `Nat`. -/
structure Round where
  id : Nat
  rawA : Nat
  rawB : Nat
  appliedA : Nat
  appliedB : Nat
  isDouble : Bool
deriving Repr, DecidableEq

/-- The persisted aggregate (`type PersistedState` in the source). -/
structure PersistedState where
  onboardingDone : Bool
  teamAName : String
  teamBName : String
  doubleFirstHand : Bool
  rounds : List Round
  winsA : Nat
  winsB : Nat
deriving Repr, DecidableEq

/-- `const TARGET_SCORE = 150`. -/
def TARGET_SCORE : Nat := 150

/-- `const defaultState` in the source. -/
def defaultState : PersistedState :=
  { onboardingDone := false
    teamAName := ""
    teamBName := ""
    doubleFirstHand := false
    rounds := []
    winsA := 0
    winsB := 0 }

/-- The totals reduce used both by the `totals` memo and inside `addRound`:
`rounds.reduce((acc, round) => \x7b acc.a += round.appliedA; acc.b += round.appliedB ... \x7d, \x7b a: 0, b: 0 \x7d)`. -/
def computeTotals (rounds : List Round) : Nat × Nat :=
  rounds.foldl (fun acc r => (acc.1 + r.appliedA, acc.2 + r.appliedB)) (0, 0)

/-- The textual content of a score field, as seen through the JS coercion
`roundA === '' ? 0 : Number(roundA)`: the field is empty, holds text that
`Number` cannot parse to a finite value (NaN and the infinities are merged here:
both fail `Number.isInteger`, which is the only test applied to them), or holds
a finite numeric value, possibly negative or fractional. -/
inductive RawField where
  | empty
  | nan
  | val (q : ℚ)
deriving Repr, DecidableEq

/-- `roundA === '' ? 0 : Number(roundA)`; `none` stands for NaN. -/
def parseField : RawField → Option ℚ
  | .empty => some 0
  | .nan => none
  | .val q => some q

/-- `Number.isInteger(x)`: false on NaN, true exactly on integral finite values. -/
def jsIsInteger : Option ℚ → Bool
  | none => false
  | some q => q.den = 1

/-- `x < 0` in JS: false on NaN. -/
def jsNeg : Option ℚ → Bool
  | none => false
  | some q => q < 0

/-- Extracts the `Nat` value of a rational already known to be a non-negative
integer (embedding glue: JS keeps the same number, Lean changes its type). -/
def ratToNat (q : ℚ) : Nat := q.num.toNat

/-- The two rejection messages of `addRound`. -/
inductive RoundError where
  | notInteger
  | allZero
deriving Repr, DecidableEq

/-- The observable outcome of a call to `addRound`: the error message set by
`setError` (if any), the state after the call (`setState`), and the match-won
banner set by `setWinnerBanner` (if any). -/
structure AddOutcome where
  error : Option RoundError
  state : PersistedState
  banner : Option String
deriving Repr, DecidableEq

/-- Construction of the candidate round, lines 238-247 of the source:
`isDouble = state.doubleFirstHand && state.rounds.length === 0`, applied
values doubled exactly when `isDouble`. -/
def nextRoundOf (s : PersistedState) (a b now : Nat) : Round :=
  let isDouble := s.doubleFirstHand && s.rounds.isEmpty
  { id := now
    rawA := a
    rawB := b
    appliedA := if isDouble then a * 2 else a
    appliedB := if isDouble then b * 2 else b
    isDouble := isDouble }

/-- The post-validation body of `addRound` (lines 238-277): append the candidate
round, recompute totals, evaluate the win condition, and either record the win
and clear the ledger or commit the candidate ledger. -/
def addRoundCore (s : PersistedState) (a b now : Nat) : AddOutcome :=
  let nextRound := nextRoundOf s a b now
  let nextRounds := s.rounds ++ [nextRound]
  let nextTotals := computeTotals nextRounds
  let aWon : Bool := decide (TARGET_SCORE ≤ nextTotals.1) && decide (nextTotals.2 < nextTotals.1)
  let bWon : Bool := decide (TARGET_SCORE ≤ nextTotals.2) && decide (nextTotals.1 < nextTotals.2)
  if aWon || bWon then
    let winnerName := if aWon then s.teamAName else s.teamBName
    { error := none
      state := { s with
        winsA := if aWon then s.winsA + 1 else s.winsA
        winsB := if bWon then s.winsB + 1 else s.winsB
        rounds := [] }
      banner := some (winnerName ++ " ganó la partida! 🏆") }
  else
    { error := none, state := { s with rounds := nextRounds }, banner := none }

/-- `addRound` (lines 221-277): validation of the two score fields, then the
core append/win logic. `now` is the value `Date.now()` returns at this call. -/
def addRound (s : PersistedState) (fieldA fieldB : RawField) (now : Nat) : AddOutcome :=
  let rawA := parseField fieldA
  let rawB := parseField fieldB
  if !jsIsInteger rawA || !jsIsInteger rawB || jsNeg rawA || jsNeg rawB then
    { error := some .notInteger, state := s, banner := none }
  else if rawA.getD 0 = 0 ∧ rawB.getD 0 = 0 then
    { error := some .allZero, state := s, banner := none }
  else
    addRoundCore s (ratToNat (rawA.getD 0)) (ratToNat (rawB.getD 0)) now

/-- `undoRound`: `rounds.slice(0, -1)`, i.e. drop the last round. -/
def undoRound (s : PersistedState) : PersistedState :=
  { s with rounds := s.rounds.dropLast }

/-- `resetCurrentGame`: clear the ledger only. -/
def resetCurrentGame (s : PersistedState) : PersistedState :=
  { s with rounds := [] }

/-- `input.trim()`: strip leading and trailing whitespace. Embedded over the
character list (the library's byte-position implementation does not reduce in
the kernel); team names are ordinary text, for which this is the same
function. -/
def jsTrim (s : String) : String :=
  ⟨((s.data.dropWhile Char.isWhitespace).reverse.dropWhile Char.isWhitespace).reverse⟩

/-- `input.toLowerCase()`, embedded as per-character lowercasing. -/
def jsToLower (s : String) : String :=
  ⟨s.data.map Char.toLower⟩

/-- The single configuration error (both rejection messages of the two
configuration forms reject without mutating state). -/
inductive ConfigError where
  | invalidConfig
deriving Repr, DecidableEq

/-- Outcome of a configuration call: the error (if any) and the state after. -/
structure ConfigOutcome where
  error : Option ConfigError
  state : PersistedState
deriving Repr, DecidableEq

/-- `saveOnboarding` (lines 171-195): trim both names, reject empty or
case-insensitively equal names, else store the trimmed names, the rule flag
and mark onboarding done. The `prev.rounds.length > 0 ? prev.rounds : []`
ternary of the source is kept as written. -/
def saveOnboarding (s : PersistedState) (teamAInput teamBInput : String) (doubleInput : Bool) : ConfigOutcome :=
  let a := jsTrim teamAInput
  let b := jsTrim teamBInput
  if a = "" ∨ b = "" then
    { error := some .invalidConfig, state := s }
  else if jsToLower a = jsToLower b then
    { error := some .invalidConfig, state := s }
  else
    { error := none
      state := { s with
        onboardingDone := true
        teamAName := a
        teamBName := b
        doubleFirstHand := doubleInput
        rounds := if 0 < s.rounds.length then s.rounds else [] } }

/-- `saveSettings` (lines 197-219): same validation, updates names and flag only. -/
def saveSettings (s : PersistedState) (teamAInput teamBInput : String) (doubleInput : Bool) : ConfigOutcome :=
  let a := jsTrim teamAInput
  let b := jsTrim teamBInput
  if a = "" ∨ b = "" then
    { error := some .invalidConfig, state := s }
  else if jsToLower a = jsToLower b then
    { error := some .invalidConfig, state := s }
  else
    { error := none
      state := { s with teamAName := a, teamBName := b, doubleFirstHand := doubleInput } }

/-!
JSON documents. The persisted value and the backup file are JSON; a parsed
document is an arbitrary JSON tree. Serialisation (`JSON.stringify`) and
parsing (`JSON.parse`) are modelled at the level of these trees: a stringify
followed by a parse of a tree of booleans, finite numbers, strings, arrays and
objects is the identity, so the textual stage is elided.
-/

/-- A parsed JSON value (the possible results of `JSON.parse`). -/
inductive JValue where
  | null
  | bool (b : Bool)
  | num (q : ℚ)
  | str (s : String)
  | arr (xs : List JValue)
  | obj (fs : List (String × JValue))

/-- JS truthiness of a parsed JSON value (`!value` in `isValidState`). -/
def truthy : JValue → Bool
  | .null => false
  | .bool b => b
  | .num q => decide (q ≠ 0)
  | .str s => decide (s ≠ "")
  | .arr _ => true
  | .obj _ => true

/-- `typeof value === 'object'` on a parsed JSON value: true for objects,
arrays, and `null`. -/
def typeofObject : JValue → Bool
  | .null => true
  | .arr _ => true
  | .obj _ => true
  | _ => false

/-- Property lookup in a JS object literal built by `JSON.parse`: with a
duplicated key the last occurrence wins. -/
def lookupLast (fs : List (String × JValue)) (k : String) : Option JValue :=
  fs.foldl (fun acc p => if p.1 = k then some p.2 else acc) none

/-- `value.field` access: `undefined` (here `none`) on anything that is not an
object with that named property. (Arrays have no property named after any of
the fields looked up below, so named access on an array yields `undefined`.) -/
def getField : JValue → String → Option JValue
  | .obj fs, k => lookupLast fs k
  | _, _ => none

/-- `typeof v.f === 'boolean'`. -/
def isBoolField (o : Option JValue) : Bool :=
  match o with
  | some (.bool _) => true
  | _ => false

/-- `typeof v.f === 'string'`. -/
def isStrField (o : Option JValue) : Bool :=
  match o with
  | some (.str _) => true
  | _ => false

/-- `typeof v.f === 'number'`. -/
def isNumField (o : Option JValue) : Bool :=
  match o with
  | some (.num _) => true
  | _ => false

/-- `Array.isArray(v.f)`. -/
def isArrField (o : Option JValue) : Bool :=
  match o with
  | some (.arr _) => true
  | _ => false

/-- `isValidState` (lines 99-111 of the source): truthiness, `typeof 'object'`,
then a type check of each top-level field. Note the ledger check is only
`Array.isArray(v.rounds)`: the elements of the array are not inspected. -/
def isValidState (v : JValue) : Bool :=
  truthy v && typeofObject v &&
    (isBoolField (getField v "onboardingDone") &&
     isStrField (getField v "teamAName") &&
     isStrField (getField v "teamBName") &&
     isBoolField (getField v "doubleFirstHand") &&
     isArrField (getField v "rounds") &&
     isNumField (getField v "winsA") &&
     isNumField (getField v "winsB"))

/-- Serialisation of a round, as `JSON.stringify` lays it out. -/
def roundToJ (r : Round) : JValue :=
  .obj [("id", .num r.id), ("rawA", .num r.rawA), ("rawB", .num r.rawB),
        ("appliedA", .num r.appliedA), ("appliedB", .num r.appliedB),
        ("isDouble", .bool r.isDouble)]

/-- Serialisation of the whole state, as `JSON.stringify` lays it out. -/
def toJValue (s : PersistedState) : JValue :=
  .obj [("onboardingDone", .bool s.onboardingDone),
        ("teamAName", .str s.teamAName),
        ("teamBName", .str s.teamBName),
        ("doubleFirstHand", .bool s.doubleFirstHand),
        ("rounds", .arr (s.rounds.map roundToJ)),
        ("winsA", .num s.winsA),
        ("winsB", .num s.winsB)]

/-- What `localStorage.getItem(STORAGE_KEY)` followed by `JSON.parse` can
yield: no stored value, a stored value `JSON.parse` throws on, or a parsed
JSON tree. -/
inductive StoredValue where
  | absent
  | malformed
  | parsed (v : JValue)

/-- `loadInitialState` (lines 113-124): the default state when the slot is
absent, unparseable, or fails `isValidState`; the parsed value otherwise.
The in-memory state is the parsed JS object, so the result is a JSON tree. -/
def loadInitialState : StoredValue → JValue
  | .absent => toJValue defaultState
  | .malformed => toJValue defaultState
  | .parsed v => if isValidState v then v else toJValue defaultState

/-- The import failure (`'El formato del respaldo no es válido.'`). -/
inductive BackupError where
  | invalidBackup
deriving Repr, DecidableEq

/-- Outcome of `importData`: the error (if any) and the in-memory state after. -/
structure ImportOutcome where
  error : Option BackupError
  state : JValue

/-- `exportData` (lines 288-298): serialise the full current state. -/
def exportData (s : PersistedState) : JValue := toJValue s

/-- `importData` (lines 300-323): parse the selected document, reject it with
an error (leaving the current state in place) unless it passes `isValidState`,
else replace the whole in-memory state with the parsed value. -/
def importData (current : JValue) (doc : JValue) : ImportOutcome :=
  if isValidState doc then
    { error := none, state := doc }
  else
    { error := some .invalidBackup, state := current }

/-- Decodes a JSON number back to the `Nat` it serialised. -/
def decodeNat (v : JValue) : Option Nat :=
  match v with
  | .num q => if q.den = 1 ∧ 0 ≤ q.num then some q.num.toNat else none
  | _ => none

/-- Decodes a JSON boolean. -/
def decodeBool (v : JValue) : Option Bool :=
  match v with
  | .bool b => some b
  | _ => none

/-- Decodes a JSON string. -/
def decodeStr (v : JValue) : Option String :=
  match v with
  | .str s => some s
  | _ => none

/-- Decodes a serialised round back to a `Round`. -/
def decodeRound (v : JValue) : Option Round := do
  let id ← decodeNat (← getField v "id")
  let rawA ← decodeNat (← getField v "rawA")
  let rawB ← decodeNat (← getField v "rawB")
  let appliedA ← decodeNat (← getField v "appliedA")
  let appliedB ← decodeNat (← getField v "appliedB")
  let isDouble ← decodeBool (← getField v "isDouble")
  pure { id := id, rawA := rawA, rawB := rawB,
         appliedA := appliedA, appliedB := appliedB, isDouble := isDouble }

/-- Decodes a list of serialised rounds, failing on the first bad entry. -/
def decodeRoundList : List JValue → Option (List Round)
  | [] => some []
  | v :: vs => do
    let r ← decodeRound v
    let rest ← decodeRoundList vs
    pure (r :: rest)

/-- Decodes a serialised ledger. -/
def decodeRounds (v : JValue) : Option (List Round) :=
  match v with
  | .arr xs => decodeRoundList xs
  | _ => none

/-- Decodes a serialised state back to a `PersistedState`; total inverse of
`toJValue`, used to express deep equality between an imported document and the
state it was exported from. -/
def fromJValue (v : JValue) : Option PersistedState := do
  let onboardingDone ← decodeBool (← getField v "onboardingDone")
  let teamAName ← decodeStr (← getField v "teamAName")
  let teamBName ← decodeStr (← getField v "teamBName")
  let doubleFirstHand ← decodeBool (← getField v "doubleFirstHand")
  let rounds ← decodeRounds (← getField v "rounds")
  let winsA ← decodeNat (← getField v "winsA")
  let winsB ← decodeNat (← getField v "winsB")
  pure { onboardingDone := onboardingDone, teamAName := teamAName,
         teamBName := teamBName, doubleFirstHand := doubleFirstHand,
         rounds := rounds, winsA := winsA, winsB := winsB }

/-!
Reachability. The user-driven operations that mutate `PersistedState` (not
counting import, which replaces it with a parsed document) are: submitting a
round, undoing the last round, resetting the current game, and the two
configuration forms. `runOps` executes a sequence of them from a state; for
round submissions the `Date.now()` value of the call is part of the step.
-/

/-- One user-driven state-mutating operation. -/
inductive Op where
  | add (fieldA fieldB : RawField) (now : Nat)
  | undo
  | reset
  | onboard (a b : String) (d : Bool)
  | settings (a b : String) (d : Bool)
deriving Repr, DecidableEq

/-- The state after one operation (a rejected operation leaves the state as
it was, which is what the outcome's `state` field already records). -/
def applyOp (s : PersistedState) : Op → PersistedState
  | .add fieldA fieldB now => (addRound s fieldA fieldB now).state
  | .undo => undoRound s
  | .reset => resetCurrentGame s
  | .onboard a b d => (saveOnboarding s a b d).state
  | .settings a b d => (saveSettings s a b d).state

/-- The state after a sequence of operations. -/
def runOps (s : PersistedState) : List Op → PersistedState
  | [] => s
  | op :: rest => runOps (applyOp s op) rest

/-- States reachable from the default state by user-driven operations alone
(no import of an external document). -/
def Reachable (s : PersistedState) : Prop :=
  ∃ ops : List Op, runOps defaultState ops = s

/-- Along a run, every `Date.now()` value supplied to a round submission
differs from the id of every round then in the ledger — the situation a
strictly increasing clock guarantees. -/
def freshIdsRun (s : PersistedState) : List Op → Bool
  | [] => true
  | op :: rest =>
    (match op with
     | .add _ _ now => s.rounds.all (fun r => r.id != now)
     | _ => true) && freshIdsRun (applyOp s op) rest

/-!
Spec-side shape predicates, for comparison with the code's `isValidState`.
They are written from the spec's words, not from the source.
-/

/-- Modelled from the spec: a "round-shaped record", i.e. one with
"identifier, raw, applied, and isDouble fields of the right types" — numeric
`id`, `rawA`, `rawB`, `appliedA`, `appliedB` and boolean `isDouble`. The
code's `isValidState` performs no such per-element check. -/
def specRoundShaped (v : JValue) : Bool :=
  isNumField (getField v "id") &&
  isNumField (getField v "rawA") &&
  isNumField (getField v "rawB") &&
  isNumField (getField v "appliedA") &&
  isNumField (getField v "appliedB") &&
  isBoolField (getField v "isDouble")

/-- Modelled from the spec: the top-level shape — the document is an object
and "every required field is present with the expected primitive type", the
ledger being an array. -/
def specTopShape (v : JValue) : Bool :=
  match v with
  | .obj _ =>
    isBoolField (getField v "onboardingDone") &&
    isStrField (getField v "teamAName") &&
    isStrField (getField v "teamBName") &&
    isBoolField (getField v "doubleFirstHand") &&
    isArrField (getField v "rounds") &&
    isNumField (getField v "winsA") &&
    isNumField (getField v "winsB")
  | _ => false

/-- A backup document whose top-level fields are well typed but whose ledger
holds a bare number instead of a round-shaped record. -/
def badBackupDoc : JValue :=
  .obj [("onboardingDone", .bool true),
        ("teamAName", .str "Rojos"),
        ("teamBName", .str "Azules"),
        ("doubleFirstHand", .bool false),
        ("rounds", .arr [.num 3]),
        ("winsA", .num 0),
        ("winsB", .num 0)]

/-- Totals of the candidate ledger `state.rounds ++ [nextRound]` that
`addRound` evaluates the win condition on. -/
def newTotals (s : PersistedState) (a b now : Nat) : Nat × Nat :=
  computeTotals (s.rounds ++ [nextRoundOf s a b now])

/-!
Helper lemmas (shared by several claims).
-/

/-- A rational passes `Number.isInteger` and the non-negativity test exactly
when it is (the image of) a natural number. -/
lemma rat_nat_iff (q : ℚ) : (q.den = 1 ∧ ¬ q < 0) ↔ ∃ a : Nat, q = (a : ℚ) := by
  constructor
  · rintro ⟨hd, hneg⟩
    have h0 : (0 : ℚ) ≤ q := not_lt.mp hneg
    have hnum : (0 : ℤ) ≤ q.num := Rat.num_nonneg.mpr h0
    refine ⟨q.num.toNat, ?_⟩
    have hq : (q.num : ℚ) = q := (Rat.den_eq_one_iff q).mp hd
    rw [← hq]
    norm_cast
    exact (Int.toNat_of_nonneg hnum).symm
  · rintro ⟨a, rfl⟩
    constructor
    · simp
    · simp [not_lt]

/-- The parsed value of a score field is a natural number exactly when the
field passes the integer and sign checks of `addRound`. -/
lemma field_nat_iff (f : RawField) :
    (jsIsInteger (parseField f) = true ∧ jsNeg (parseField f) = false) ↔
      ∃ a : Nat, parseField f = some (a : ℚ) := by
  cases f with
  | empty =>
    constructor
    · intro _
      exact ⟨0, by simp [parseField]⟩
    · intro _
      exact ⟨by decide, by decide⟩
  | nan => simp [parseField, jsIsInteger]
  | val q =>
    constructor
    · rintro ⟨h1, h2⟩
      have hd : q.den = 1 := by simpa [jsIsInteger, parseField] using h1
      have hn : ¬ q < 0 := by simpa [jsNeg, parseField] using h2
      obtain ⟨a, ha⟩ := (rat_nat_iff q).mp ⟨hd, hn⟩
      exact ⟨a, by simp [parseField, ha]⟩
    · rintro ⟨a, ha⟩
      have hq : q = (a : ℚ) := by simpa [parseField] using ha
      subst hq
      constructor
      · simp [jsIsInteger, parseField]
      · simp [jsNeg, parseField, not_lt]

/-- Whatever branch `addRoundCore` takes, it reports no validation error. -/
lemma addRoundCore_error (s : PersistedState) (a b now : Nat) :
    (addRoundCore s a b now).error = none := by
  simp only [addRoundCore]
  split <;> rfl

/-- When both fields parse to naturals not both zero, `addRound` runs its
post-validation body on those naturals. -/
lemma addRound_eq_core (s : PersistedState) (fA fB : RawField) (now a b : Nat)
    (hA : parseField fA = some (a : ℚ)) (hB : parseField fB = some (b : ℚ))
    (hz : ¬(a = 0 ∧ b = 0)) :
    addRound s fA fB now = addRoundCore s a b now := by
  have hIA : jsIsInteger (some ((a : ℚ))) = true := by simp [jsIsInteger]
  have hIB : jsIsInteger (some ((b : ℚ))) = true := by simp [jsIsInteger]
  have hNA : jsNeg (some ((a : ℚ))) = false := by simp [jsNeg, not_lt]
  have hNB : jsNeg (some ((b : ℚ))) = false := by simp [jsNeg, not_lt]
  have hrA : ratToNat ((a : ℚ)) = a := by simp [ratToNat]
  have hrB : ratToNat ((b : ℚ)) = b := by simp [ratToNat]
  simp only [addRound, hA, hB, hIA, hIB, hNA, hNB, Bool.not_true, Bool.false_or,
    Bool.or_false, Bool.or_self, Option.getD_some, hrA, hrB]
  rw [if_neg (by simp), if_neg (by exact_mod_cast hz)]

/-- If team A's candidate total reaches the target and strictly exceeds team
B's, the round records a win for A: counter up by one, ledger cleared, banner
with A's name. -/
lemma addRoundCore_Awin (s : PersistedState) (a b now : Nat)
    (h : TARGET_SCORE ≤ (newTotals s a b now).1 ∧ (newTotals s a b now).2 < (newTotals s a b now).1) :
    addRoundCore s a b now =
      { error := none
        state := { s with winsA := s.winsA + 1, rounds := [] }
        banner := some (s.teamAName ++ " ganó la partida! 🏆") } := by
  obtain ⟨h1, h2⟩ := h
  have h3 : ¬ (newTotals s a b now).1 < (newTotals s a b now).2 := not_lt.mpr h2.le
  simp only [newTotals] at h1 h2 h3
  simp [addRoundCore, decide_eq_true h1, decide_eq_true h2, decide_eq_false h3]

/-- Symmetric win for team B. -/
lemma addRoundCore_Bwin (s : PersistedState) (a b now : Nat)
    (h : TARGET_SCORE ≤ (newTotals s a b now).2 ∧ (newTotals s a b now).1 < (newTotals s a b now).2) :
    addRoundCore s a b now =
      { error := none
        state := { s with winsB := s.winsB + 1, rounds := [] }
        banner := some (s.teamBName ++ " ganó la partida! 🏆") } := by
  obtain ⟨h1, h2⟩ := h
  have h3 : ¬ (newTotals s a b now).2 < (newTotals s a b now).1 := not_lt.mpr h2.le
  simp only [newTotals] at h1 h2 h3
  simp [addRoundCore, decide_eq_true h1, decide_eq_true h2, decide_eq_false h3]

/-- With no winner, the candidate ledger is committed and nothing else moves. -/
lemma addRoundCore_commit (s : PersistedState) (a b now : Nat)
    (h1 : ¬(TARGET_SCORE ≤ (newTotals s a b now).1 ∧ (newTotals s a b now).2 < (newTotals s a b now).1))
    (h2 : ¬(TARGET_SCORE ≤ (newTotals s a b now).2 ∧ (newTotals s a b now).1 < (newTotals s a b now).2)) :
    addRoundCore s a b now =
      { error := none
        state := { s with rounds := s.rounds ++ [nextRoundOf s a b now] }
        banner := none } := by
  simp only [newTotals] at h1 h2
  simp [addRoundCore, ← Bool.decide_and, decide_eq_false h1, decide_eq_false h2]

/-- Claim C1: after appending a validated round, team A is declared the winner
(match-won banner produced, its counter incremented) exactly when its new
applied total reaches `TARGET_SCORE` and strictly exceeds team B's new total;
symmetrically for team B; and no pair of totals satisfies both win conditions,
strict excess being antisymmetric. -/
theorem addRound_win_iff (s : PersistedState) (fA fB : RawField) (now a b : Nat)
    (hA : parseField fA = some (a : ℚ)) (hB : parseField fB = some (b : ℚ))
    (hz : ¬(a = 0 ∧ b = 0)) :
    (((addRound s fA fB now).banner.isSome = true ∧ (addRound s fA fB now).state.winsA = s.winsA + 1) ↔
        (TARGET_SCORE ≤ (newTotals s a b now).1 ∧ (newTotals s a b now).2 < (newTotals s a b now).1))
    ∧ (((addRound s fA fB now).banner.isSome = true ∧ (addRound s fA fB now).state.winsB = s.winsB + 1) ↔
        (TARGET_SCORE ≤ (newTotals s a b now).2 ∧ (newTotals s a b now).1 < (newTotals s a b now).2))
    ∧ (∀ ta tb : Nat, ¬((TARGET_SCORE ≤ ta ∧ tb < ta) ∧ (TARGET_SCORE ≤ tb ∧ ta < tb))) := by
  rw [addRound_eq_core s fA fB now a b hA hB hz]
  refine ⟨?_, ?_, ?_⟩
  · by_cases hAw : TARGET_SCORE ≤ (newTotals s a b now).1 ∧ (newTotals s a b now).2 < (newTotals s a b now).1
    · rw [addRoundCore_Awin s a b now hAw]
      simpa using hAw
    · by_cases hBw : TARGET_SCORE ≤ (newTotals s a b now).2 ∧ (newTotals s a b now).1 < (newTotals s a b now).2
      · rw [addRoundCore_Bwin s a b now hBw]
        simpa using hAw
      · rw [addRoundCore_commit s a b now hAw hBw]
        simpa using hAw
  · by_cases hAw : TARGET_SCORE ≤ (newTotals s a b now).1 ∧ (newTotals s a b now).2 < (newTotals s a b now).1
    · rw [addRoundCore_Awin s a b now hAw]
      have : ¬(TARGET_SCORE ≤ (newTotals s a b now).2 ∧ (newTotals s a b now).1 < (newTotals s a b now).2) :=
        fun hBw => lt_asymm hAw.2 hBw.2
      simpa using this
    · by_cases hBw : TARGET_SCORE ≤ (newTotals s a b now).2 ∧ (newTotals s a b now).1 < (newTotals s a b now).2
      · rw [addRoundCore_Bwin s a b now hBw]
        simpa using hBw
      · rw [addRoundCore_commit s a b now hAw hBw]
        simpa using hBw
  · rintro ta tb ⟨⟨_, h2⟩, ⟨_, h4⟩⟩
    exact lt_asymm h2 h4

/-- Claim C2: appending a validated round that makes team X's applied total
reach the target while strictly exceeding the other team's total increments
exactly X's win counter, empties the ledger, leaves the other counter alone
and produces the match-won banner with the winner's name; with no win the
candidate ledger is committed and both counters are unchanged. -/
theorem addRound_effects (s : PersistedState) (fA fB : RawField) (now a b : Nat)
    (hA : parseField fA = some (a : ℚ)) (hB : parseField fB = some (b : ℚ))
    (hz : ¬(a = 0 ∧ b = 0)) :
    (TARGET_SCORE ≤ (newTotals s a b now).1 ∧ (newTotals s a b now).2 < (newTotals s a b now).1 →
        addRound s fA fB now =
          { error := none
            state := { s with winsA := s.winsA + 1, rounds := [] }
            banner := some (s.teamAName ++ " ganó la partida! 🏆") })
    ∧ (TARGET_SCORE ≤ (newTotals s a b now).2 ∧ (newTotals s a b now).1 < (newTotals s a b now).2 →
        addRound s fA fB now =
          { error := none
            state := { s with winsB := s.winsB + 1, rounds := [] }
            banner := some (s.teamBName ++ " ganó la partida! 🏆") })
    ∧ (¬(TARGET_SCORE ≤ (newTotals s a b now).1 ∧ (newTotals s a b now).2 < (newTotals s a b now).1) →
       ¬(TARGET_SCORE ≤ (newTotals s a b now).2 ∧ (newTotals s a b now).1 < (newTotals s a b now).2) →
        addRound s fA fB now =
          { error := none
            state := { s with rounds := s.rounds ++ [nextRoundOf s a b now] }
            banner := none }) := by
  rw [addRound_eq_core s fA fB now a b hA hB hz]
  exact ⟨addRoundCore_Awin s a b now, addRoundCore_Bwin s a b now, addRoundCore_commit s a b now⟩

/-- Claim C3: for an accepted round, the applied values equal double the raw
values exactly when the `doubleFirstHand` flag is set and the ledger is empty
at submission (the flag being read from the current state at application
time); the round's `isDouble` marker records that condition, the round is
accepted, and when no win occurs this is the round committed to the ledger. -/
theorem addRound_double_iff (s : PersistedState) (fA fB : RawField) (now a b : Nat)
    (hA : parseField fA = some (a : ℚ)) (hB : parseField fB = some (b : ℚ))
    (hz : ¬(a = 0 ∧ b = 0)) :
    (((nextRoundOf s a b now).appliedA = 2 * (nextRoundOf s a b now).rawA ∧
      (nextRoundOf s a b now).appliedB = 2 * (nextRoundOf s a b now).rawB) ↔
        (s.doubleFirstHand = true ∧ s.rounds = []))
    ∧ (nextRoundOf s a b now).isDouble = (s.doubleFirstHand && s.rounds.isEmpty)
    ∧ (addRound s fA fB now).error = none
    ∧ ((addRound s fA fB now).banner = none →
        (addRound s fA fB now).state.rounds = s.rounds ++ [nextRoundOf s a b now]) := by
  rw [addRound_eq_core s fA fB now a b hA hB hz]
  refine ⟨?_, rfl, addRoundCore_error s a b now, ?_⟩
  · by_cases hd : s.doubleFirstHand && s.rounds.isEmpty
    · have hflag : s.doubleFirstHand = true := (Bool.and_eq_true _ _ |>.mp hd).1
      have hemp : s.rounds = [] := by
        have := (Bool.and_eq_true _ _ |>.mp hd).2
        simpa [List.isEmpty_iff] using this
      simp [nextRoundOf, hd, hflag, hemp, Nat.mul_comm]
    · have : ¬(s.doubleFirstHand = true ∧ s.rounds = []) := by
        intro hc
        exact hd (by simp [hc.1, hc.2])
      simp only [Bool.not_eq_true] at hd
      have happA : (nextRoundOf s a b now).appliedA = a := by simp [nextRoundOf, hd]
      have happB : (nextRoundOf s a b now).appliedB = b := by simp [nextRoundOf, hd]
      have hrawA : (nextRoundOf s a b now).rawA = a := by simp [nextRoundOf]
      have hrawB : (nextRoundOf s a b now).rawB = b := by simp [nextRoundOf]
      rw [happA, happB, hrawA, hrawB]
      constructor
      · rintro ⟨ha, hb⟩
        exact absurd ⟨by omega, by omega⟩ hz
      · intro hc
        exact absurd hc this
  · by_cases hAw : TARGET_SCORE ≤ (newTotals s a b now).1 ∧ (newTotals s a b now).2 < (newTotals s a b now).1
    · rw [addRoundCore_Awin s a b now hAw]
      intro hcontra
      simp at hcontra
    · by_cases hBw : TARGET_SCORE ≤ (newTotals s a b now).2 ∧ (newTotals s a b now).1 < (newTotals s a b now).2
      · rw [addRoundCore_Bwin s a b now hBw]
        intro hcontra
        simp at hcontra
      · rw [addRoundCore_commit s a b now hAw hBw]
        intro _
        rfl

/-- If the first field does not hold a non-negative integer, `addRound`
rejects with the integer error and leaves the state alone. -/
lemma addRound_notIntegerA (s : PersistedState) (fA fB : RawField) (now : Nat)
    (h : ¬ ∃ a : Nat, parseField fA = some (a : ℚ)) :
    addRound s fA fB now = { error := some .notInteger, state := s, banner := none } := by
  have hni : ¬(jsIsInteger (parseField fA) = true ∧ jsNeg (parseField fA) = false) :=
    fun h2 => h ((field_nat_iff fA).mp h2)
  have hcond : (!jsIsInteger (parseField fA) || !jsIsInteger (parseField fB) ||
      jsNeg (parseField fA) || jsNeg (parseField fB)) = true := by
    cases hI : jsIsInteger (parseField fA) with
    | false => simp
    | true =>
      cases hN : jsNeg (parseField fA) with
      | false => exact absurd ⟨hI, hN⟩ hni
      | true => simp
  simp only [addRound, hcond, if_true]

/-- Same rejection when the second field fails the integer test. -/
lemma addRound_notIntegerB (s : PersistedState) (fA fB : RawField) (now : Nat)
    (h : ¬ ∃ b : Nat, parseField fB = some (b : ℚ)) :
    addRound s fA fB now = { error := some .notInteger, state := s, banner := none } := by
  have hni : ¬(jsIsInteger (parseField fB) = true ∧ jsNeg (parseField fB) = false) :=
    fun h2 => h ((field_nat_iff fB).mp h2)
  have hcond : (!jsIsInteger (parseField fA) || !jsIsInteger (parseField fB) ||
      jsNeg (parseField fA) || jsNeg (parseField fB)) = true := by
    cases hI : jsIsInteger (parseField fB) with
    | false => simp
    | true =>
      cases hN : jsNeg (parseField fB) with
      | false => exact absurd ⟨hI, hN⟩ hni
      | true => simp
  simp only [addRound, hcond, if_true]

/-- When both fields read as zero, `addRound` rejects with the all-zero error
and leaves the state alone. -/
lemma addRound_allZero (s : PersistedState) (fA fB : RawField) (now : Nat)
    (ha : parseField fA = some 0) (hb : parseField fB = some 0) :
    addRound s fA fB now = { error := some .allZero, state := s, banner := none } := by
  have hI : jsIsInteger (some (0 : ℚ)) = true := by decide
  have hN : jsNeg (some (0 : ℚ)) = false := by decide
  simp only [addRound, ha, hb, hI, hN, Bool.not_true, Bool.or_self, Bool.or_false,
    Bool.false_eq_true, if_false, Option.getD_some, and_self, if_true]

/-- Claim C5: a round is rejected exactly when one of the two values is not a
non-negative integer or both read as zero; an empty field reads as zero; and
a rejected round leaves the whole state untouched. -/
theorem addRound_validation (s : PersistedState) (fA fB : RawField) (now : Nat) :
    ((addRound s fA fB now).error.isSome = true ↔
      ((¬ ∃ a : Nat, parseField fA = some (a : ℚ)) ∨
       (¬ ∃ b : Nat, parseField fB = some (b : ℚ)) ∨
       (parseField fA = some 0 ∧ parseField fB = some 0)))
    ∧ ((addRound s fA fB now).error.isSome = true → (addRound s fA fB now).state = s)
    ∧ parseField RawField.empty = some 0 := by
  have main : (addRound s fA fB now).error.isSome = true ↔
      ((¬ ∃ a : Nat, parseField fA = some (a : ℚ)) ∨
       (¬ ∃ b : Nat, parseField fB = some (b : ℚ)) ∨
       (parseField fA = some 0 ∧ parseField fB = some 0)) := by
    by_cases hEA : ∃ a : Nat, parseField fA = some ((a : ℚ))
    · by_cases hEB : ∃ b : Nat, parseField fB = some ((b : ℚ))
      · obtain ⟨a, ha⟩ := hEA
        obtain ⟨b, hb⟩ := hEB
        by_cases hz : a = 0 ∧ b = 0
        · have ha0 : parseField fA = some 0 := by
            rw [ha, hz.1]; norm_num
          have hb0 : parseField fB = some 0 := by
            rw [hb, hz.2]; norm_num
          rw [addRound_allZero s fA fB now ha0 hb0]
          simp [ha0, hb0]
        · rw [addRound_eq_core s fA fB now a b ha hb hz]
          rw [addRoundCore_error s a b now]
          simp only [Option.isSome_none, Bool.false_eq_true, false_iff]
          push_neg
          refine ⟨⟨a, ha⟩, ⟨b, hb⟩, ?_⟩
          intro h1 h2
          have ha0 : (a : ℚ) = 0 := by
            have := ha.symm.trans h1
            simpa using this
          have hb0 : (b : ℚ) = 0 := by
            have := hb.symm.trans h2
            simpa using this
          exact absurd ⟨by exact_mod_cast ha0, by exact_mod_cast hb0⟩ hz
      · rw [addRound_notIntegerB s fA fB now hEB]
        simp [hEB]
    · rw [addRound_notIntegerA s fA fB now hEA]
      simp [hEA]
  refine ⟨main, ?_, rfl⟩
  intro herr
  by_cases hEA : ∃ a : Nat, parseField fA = some ((a : ℚ))
  · by_cases hEB : ∃ b : Nat, parseField fB = some ((b : ℚ))
    · obtain ⟨a, ha⟩ := hEA
      obtain ⟨b, hb⟩ := hEB
      by_cases hz : a = 0 ∧ b = 0
      · have ha0 : parseField fA = some 0 := by
          rw [ha, hz.1]; norm_num
        have hb0 : parseField fB = some 0 := by
          rw [hb, hz.2]; norm_num
        rw [addRound_allZero s fA fB now ha0 hb0]
      · rw [addRound_eq_core s fA fB now a b ha hb hz] at herr
        rw [addRoundCore_error s a b now] at herr
        simp at herr
    · rw [addRound_notIntegerB s fA fB now hEB]
  · rw [addRound_notIntegerA s fA fB now hEA]

/-- Claim C7: undo on an empty ledger is a no-op; on a ledger of N ≥ 1 rounds
it removes exactly the most recent round, keeps the first N−1 unchanged, and
touches neither the win counters nor the configuration. -/
theorem undoRound_spec (s : PersistedState) :
    (s.rounds = [] → undoRound s = s)
    ∧ (∀ l r, s.rounds = l ++ [r] → undoRound s = { s with rounds := l }) := by
  constructor
  · intro h
    cases s
    simp_all [undoRound]
  · intro l r h
    simp [undoRound, h]

/-- Claim C7 witness: undo at two concrete states. -/
theorem undoRound_spec_witness :
    undoRound defaultState = defaultState ∧
    undoRound { defaultState with
      rounds := [{ id := 1, rawA := 5, rawB := 0, appliedA := 5, appliedB := 0, isDouble := false }] } =
        defaultState := by
  constructor
  · exact (undoRound_spec defaultState).1 rfl
  · have h := (undoRound_spec { defaultState with
      rounds := [{ id := 1, rawA := 5, rawB := 0, appliedA := 5, appliedB := 0, isDouble := false }] }).2
      [] { id := 1, rawA := 5, rawB := 0, appliedA := 5, appliedB := 0, isDouble := false } rfl
    simpa using h

/-- Claim C8: a configuration submission (onboarding or settings) is rejected
exactly when a name is empty after trimming or the two names are equal
ignoring case; rejection mutates nothing; success stores the trimmed names. -/
theorem config_validation (s : PersistedState) (a b : String) (d : Bool) :
    ((saveOnboarding s a b d).error.isSome = true ↔
        (jsTrim a = "" ∨ jsTrim b = "" ∨ jsToLower (jsTrim a) = jsToLower (jsTrim b)))
    ∧ ((saveOnboarding s a b d).error.isSome = true → (saveOnboarding s a b d).state = s)
    ∧ ((saveOnboarding s a b d).error = none →
        (saveOnboarding s a b d).state.teamAName = jsTrim a ∧
        (saveOnboarding s a b d).state.teamBName = jsTrim b)
    ∧ ((saveSettings s a b d).error.isSome = true ↔
        (jsTrim a = "" ∨ jsTrim b = "" ∨ jsToLower (jsTrim a) = jsToLower (jsTrim b)))
    ∧ ((saveSettings s a b d).error.isSome = true → (saveSettings s a b d).state = s)
    ∧ ((saveSettings s a b d).error = none →
        (saveSettings s a b d).state.teamAName = jsTrim a ∧
        (saveSettings s a b d).state.teamBName = jsTrim b) := by
  by_cases h1 : jsTrim a = "" ∨ jsTrim b = ""
  · have e1 : saveOnboarding s a b d = { error := some .invalidConfig, state := s } := by
      simp only [saveOnboarding]
      rw [if_pos h1]
    have e2 : saveSettings s a b d = { error := some .invalidConfig, state := s } := by
      simp only [saveSettings]
      rw [if_pos h1]
    rw [e1, e2]
    exact ⟨by simp [h1.imp id Or.inl], fun _ => rfl, by simp,
           by simp [h1.imp id Or.inl], fun _ => rfl, by simp⟩
  · by_cases h2 : jsToLower (jsTrim a) = jsToLower (jsTrim b)
    · have e1 : saveOnboarding s a b d = { error := some .invalidConfig, state := s } := by
        simp only [saveOnboarding]
        rw [if_neg h1, if_pos h2]
      have e2 : saveSettings s a b d = { error := some .invalidConfig, state := s } := by
        simp only [saveSettings]
        rw [if_neg h1, if_pos h2]
      rw [e1, e2]
      exact ⟨by simp [h2], fun _ => rfl, by simp, by simp [h2], fun _ => rfl, by simp⟩
    · rw [not_or] at h1
      have e1 : saveOnboarding s a b d =
          { error := none
            state := { s with
              onboardingDone := true
              teamAName := jsTrim a
              teamBName := jsTrim b
              doubleFirstHand := d
              rounds := if 0 < s.rounds.length then s.rounds else [] } } := by
        simp only [saveOnboarding]
        rw [if_neg (not_or.mpr h1), if_neg h2]
      have e2 : saveSettings s a b d =
          { error := none
            state := { s with teamAName := jsTrim a, teamBName := jsTrim b, doubleFirstHand := d } } := by
        simp only [saveSettings]
        rw [if_neg (not_or.mpr h1), if_neg h2]
      rw [e1, e2]
      exact ⟨by simp [h1.1, h1.2, h2], by simp, fun _ => ⟨rfl, rfl⟩,
             by simp [h1.1, h1.2, h2], by simp, fun _ => ⟨rfl, rfl⟩⟩

/-- Claim C8 witness: the spec's "Rojos" / "rojos" example is rejected without
mutation, and distinct names are stored trimmed. -/
theorem config_validation_witness :
    (saveOnboarding defaultState "Rojos" " rojos " true).error.isSome = true ∧
    (saveOnboarding defaultState "Rojos" " rojos " true).state = defaultState ∧
    (saveSettings defaultState " Rojos " "Azules" true).state.teamAName = "Rojos" := by
  refine ⟨?_, ?_, ?_⟩
  · exact (config_validation defaultState "Rojos" " rojos " true).1.mpr (Or.inr (Or.inr (by decide)))
  · exact (config_validation defaultState "Rojos" " rojos " true).2.1 (by decide)
  · exact ((config_validation defaultState " Rojos " "Azules" true).2.2.2.2.2 (by decide)).1.trans (by decide)

/-- An example mid-match state: team A at 120 applied points, team B at 45. -/
def exState : PersistedState :=
  { onboardingDone := true
    teamAName := "A"
    teamBName := "B"
    doubleFirstHand := false
    rounds := [{ id := 1, rawA := 120, rawB := 45, appliedA := 120, appliedB := 45, isDouble := false }]
    winsA := 0
    winsB := 0 }

/-- An example configured state with the double-first-hand rule on and an
empty ledger. -/
def dblState : PersistedState :=
  { onboardingDone := true
    teamAName := "A"
    teamBName := "B"
    doubleFirstHand := true
    rounds := []
    winsA := 0
    winsB := 0 }

/-- Claim C1 witness: the round (35, 40) on top of totals (120, 45) declares
team A the winner. -/
theorem addRound_win_iff_witness :
    (addRound exState (RawField.val 35) (RawField.val 40) 2).banner.isSome = true ∧
    (addRound exState (RawField.val 35) (RawField.val 40) 2).state.winsA = exState.winsA + 1 :=
  (addRound_win_iff exState (RawField.val 35) (RawField.val 40) 2 35 40
    (by decide) (by decide) (by decide)).1.mpr (by decide)

/-- Claim C2 witness: that same winning round increments `winsA` to 1, leaves
`winsB` at 0, clears the ledger and raises the banner with team A's name. -/
theorem addRound_effects_witness :
    addRound exState (RawField.val 35) (RawField.val 40) 2 =
      { error := none
        state := { exState with winsA := exState.winsA + 1, rounds := [] }
        banner := some (exState.teamAName ++ " ganó la partida! 🏆") } :=
  (addRound_effects exState (RawField.val 35) (RawField.val 40) 2 35 40
    (by decide) (by decide) (by decide)).1 (by decide)

/-- Claim C3 witness: with the rule on and an empty ledger, the first round
(20, 10) is applied doubled. -/
theorem addRound_double_iff_witness :
    (nextRoundOf dblState 20 10 7).appliedA = 2 * (nextRoundOf dblState 20 10 7).rawA ∧
    (nextRoundOf dblState 20 10 7).appliedB = 2 * (nextRoundOf dblState 20 10 7).rawB :=
  (addRound_double_iff dblState (RawField.val 20) (RawField.val 10) 7 20 10
    (by decide) (by decide) (by decide)).1.mpr (by decide)

/-- Claim C5 witness: two empty fields read as (0, 0) and are rejected without
mutating the state. -/
theorem addRound_validation_witness :
    (addRound exState RawField.empty RawField.empty 3).error.isSome = true ∧
    (addRound exState RawField.empty RawField.empty 3).state = exState := by
  constructor
  · exact (addRound_validation exState RawField.empty RawField.empty 3).1.mpr
      (Or.inr (Or.inr ⟨rfl, rfl⟩))
  · exact (addRound_validation exState RawField.empty RawField.empty 3).2.1 (by decide)

/-- A serialised `Nat` decodes back to itself. -/
lemma decodeNat_natCast (n : Nat) : decodeNat (.num (n : ℚ)) = some n := by
  simp [decodeNat]

/-- A serialised round decodes back to itself. -/
lemma decodeRound_roundToJ (r : Round) : decodeRound (roundToJ r) = some r := by
  simp [decodeRound, roundToJ, getField, lookupLast, decodeNat_natCast, decodeBool]

/-- A serialised ledger decodes back to itself. -/
lemma decodeRounds_map (rs : List Round) : decodeRounds (.arr (rs.map roundToJ)) = some rs := by
  simp only [decodeRounds]
  induction rs with
  | nil => rfl
  | cons r rs ih =>
    simp only [List.map_cons, decodeRoundList, decodeRound_roundToJ]
    simp only [decodeRounds] at ih
    simp [ih]

/-- A serialised state passes the structural shape check. -/
lemma isValidState_toJValue (s : PersistedState) : isValidState (toJValue s) = true := by
  simp [isValidState, toJValue, truthy, typeofObject, getField, lookupLast,
    isBoolField, isStrField, isNumField, isArrField]

/-- A serialised state decodes back to itself, field for field. -/
lemma fromJValue_toJValue (s : PersistedState) : fromJValue (toJValue s) = some s := by
  cases s
  simp [fromJValue, toJValue, getField, lookupLast, decodeBool, decodeStr,
    decodeNat_natCast, decodeRounds_map]

/-- Claim C6: importing an exported snapshot succeeds, installs exactly the
exported document, and that document decodes back to a state deep-equal to
the original (configuration, ledger and win counters included). -/
theorem export_import_roundtrip (cur : JValue) (s : PersistedState) :
    importData cur (exportData s) = { error := none, state := exportData s } ∧
    fromJValue (exportData s) = some s := by
  refine ⟨?_, fromJValue_toJValue s⟩
  simp [importData, exportData, isValidState_toJValue]

/-- Claim C4 counterexample: a document whose ledger holds a bare number (not
a round-shaped record) still passes the code's shape check and is accepted by
import, contradicting the claim that the check requires every ledger entry to
be round-shaped. -/
theorem shape_check_counterexample :
    isValidState badBackupDoc = true ∧
    getField badBackupDoc "rounds" = some (JValue.arr [JValue.num 3]) ∧
    specRoundShaped (JValue.num 3) = false ∧
    (importData (toJValue defaultState) badBackupDoc).error = none := by
  exact ⟨rfl, rfl, rfl, rfl⟩

/-- Claim C4 amended: `load` and `importData` gate on the same structural
check, which requires the top-level fields to be present with the expected
primitive types and the ledger to be an array — without inspecting the array's
elements; `load` falls back to the default state on absent, malformed or
failing values, and import fails on a failing document leaving the current
state unchanged. -/
theorem shape_check_spec (cur v : JValue) :
    (isValidState v = specTopShape v)
    ∧ loadInitialState .absent = toJValue defaultState
    ∧ loadInitialState .malformed = toJValue defaultState
    ∧ (isValidState v = false →
        loadInitialState (.parsed v) = toJValue defaultState ∧
        importData cur v = { error := some .invalidBackup, state := cur })
    ∧ (isValidState v = true →
        loadInitialState (.parsed v) = v ∧
        importData cur v = { error := none, state := v }) := by
  refine ⟨?_, rfl, rfl, ?_, ?_⟩
  · cases v <;>
      simp [isValidState, specTopShape, truthy, typeofObject, getField, isBoolField]
  · intro h
    constructor
    · simp [loadInitialState, h]
    · simp [importData, h]
  · intro h
    constructor
    · simp [loadInitialState, h]
    · simp [importData, h]

/-- Claim C4 amended witness: a top-level-valid document (with an unchecked
ledger entry) is loaded and imported as-is; a null document falls back to the
default on load and is rejected on import with the state kept. -/
theorem shape_check_spec_witness :
    (loadInitialState (.parsed badBackupDoc) = badBackupDoc ∧
      importData (toJValue defaultState) badBackupDoc =
        { error := none, state := badBackupDoc }) ∧
    (loadInitialState (.parsed JValue.null) = toJValue defaultState ∧
      importData (toJValue defaultState) JValue.null =
        { error := some .invalidBackup, state := toJValue defaultState }) :=
  ⟨(shape_check_spec (toJValue defaultState) badBackupDoc).2.2.2.2 rfl,
   (shape_check_spec (toJValue defaultState) JValue.null).2.2.2.1 rfl⟩

/-- After a call to `addRound` the ledger is unchanged (rejection), empty
(win recorded) or the old ledger with the one candidate round appended. -/
lemma addRound_rounds_cases (s : PersistedState) (fA fB : RawField) (now : Nat) :
    (addRound s fA fB now).state.rounds = s.rounds ∨
    (addRound s fA fB now).state.rounds = [] ∨
    ∃ a b : Nat, (addRound s fA fB now).state.rounds = s.rounds ++ [nextRoundOf s a b now] := by
  by_cases hEA : ∃ a : Nat, parseField fA = some ((a : ℚ))
  · by_cases hEB : ∃ b : Nat, parseField fB = some ((b : ℚ))
    · obtain ⟨a, ha⟩ := hEA
      obtain ⟨b, hb⟩ := hEB
      by_cases hz : a = 0 ∧ b = 0
      · left
        rw [addRound_allZero s fA fB now (by rw [ha, hz.1]; norm_num) (by rw [hb, hz.2]; norm_num)]
      · rw [addRound_eq_core s fA fB now a b ha hb hz]
        simp only [addRoundCore]
        split
        · right; left; rfl
        · right; right; exact ⟨a, b, rfl⟩
    · left
      rw [addRound_notIntegerB s fA fB now hEB]
  · left
    rw [addRound_notIntegerA s fA fB now hEA]

/-- `saveOnboarding` never changes the ledger (the source's ternary keeps a
non-empty ledger and replaces an empty one with an empty one). -/
lemma saveOnboarding_rounds (s : PersistedState) (a b : String) (d : Bool) :
    (saveOnboarding s a b d).state.rounds = s.rounds := by
  simp only [saveOnboarding]
  split
  · rfl
  · split
    · rfl
    · rcases Nat.eq_zero_or_pos s.rounds.length with h | h
      · have hnil : s.rounds = [] := List.length_eq_zero.mp h
        simp [hnil]
      · simp [h, Nat.pos_iff_ne_zero.mp h]

/-- `saveSettings` never changes the ledger. -/
lemma saveSettings_rounds (s : PersistedState) (a b : String) (d : Bool) :
    (saveSettings s a b d).state.rounds = s.rounds := by
  simp only [saveSettings]
  split
  · rfl
  · split <;> rfl

/-- Distinctness of ledger ids is preserved along any run in which every
round submission carries an id fresh for the then-current ledger. -/
lemma nodup_preserved (ops : List Op) : ∀ s : PersistedState,
    (s.rounds.map (fun r => r.id)).Nodup → freshIdsRun s ops = true →
    (((runOps s ops).rounds.map (fun r => r.id))).Nodup := by
  induction ops with
  | nil =>
    intro s h _
    exact h
  | cons op rest ih =>
    intro s h hfresh
    simp only [freshIdsRun, Bool.and_eq_true] at hfresh
    obtain ⟨hop, hrest⟩ := hfresh
    refine ih (applyOp s op) ?_ hrest
    cases op with
    | add fA fB now =>
      simp only [applyOp]
      rcases addRound_rounds_cases s fA fB now with hc | hc | ⟨a, b, hc⟩
      · rw [hc]; exact h
      · rw [hc]; simp
      · rw [hc]
        have hop2 : ∀ r ∈ s.rounds, r.id ≠ now := by
          intro r hm
          have := List.all_eq_true.mp hop r hm
          simpa using this
        have hnotin : now ∉ s.rounds.map (fun r => r.id) := by
          intro hmem
          obtain ⟨r, hr, hid⟩ := List.mem_map.mp hmem
          exact hop2 r hr hid
        simp only [List.map_append, List.map_cons, List.map_nil]
        rw [List.nodup_append]
        refine ⟨h, List.nodup_singleton _, ?_⟩
        intro x hx hx2
        have : x = now := by simpa [nextRoundOf] using hx2
        rw [this] at hx
        exact hnotin hx
    | undo =>
      simp only [applyOp, undoRound]
      have hsub : ((s.rounds.dropLast.map (fun r => r.id))).Sublist (s.rounds.map (fun r => r.id)) :=
        (List.dropLast_sublist s.rounds).map _
      exact List.Nodup.sublist hsub h
    | reset =>
      simp [applyOp, resetCurrentGame]
    | onboard a b d =>
      simp only [applyOp]
      rw [saveOnboarding_rounds]
      exact h
    | settings a b d =>
      simp only [applyOp]
      rw [saveSettings_rounds]
      exact h

/-- Claim C9 counterexample: the claim fails on the code as given, because
round ids are `Date.now()` values and two submissions can observe the same
millisecond: a state whose ledger holds two rounds with equal ids is
reachable from the default state without any import. -/
theorem round_ids_duplicate :
    Reachable (runOps defaultState
      [Op.add (RawField.val 5) RawField.empty 100, Op.add (RawField.val 5) RawField.empty 100]) ∧
    ¬ ((runOps defaultState
      [Op.add (RawField.val 5) RawField.empty 100,
       Op.add (RawField.val 5) RawField.empty 100]).rounds.map (fun r => r.id)).Nodup := by
  exact ⟨⟨_, rfl⟩, by decide⟩

/-- Claim C9 amended: provided every id handed to a round submission differs
from the id of each round already in the ledger — which a strictly increasing
clock guarantees — every state reachable without import has pairwise distinct
round ids. -/
theorem round_ids_nodup (ops : List Op) (hfresh : freshIdsRun defaultState ops = true) :
    ((runOps defaultState ops).rounds.map (fun r => r.id)).Nodup :=
  nodup_preserved ops defaultState (by simp [defaultState]) hfresh

/-- Claim C9 amended witness: a run with strictly increasing clock values. -/
theorem round_ids_nodup_witness :
    freshIdsRun defaultState
      [Op.add (RawField.val 5) RawField.empty 100, Op.add (RawField.val 3) (RawField.val 2) 101] = true ∧
    ((runOps defaultState
      [Op.add (RawField.val 5) RawField.empty 100,
       Op.add (RawField.val 3) (RawField.val 2) 101]).rounds.map (fun r => r.id)).Nodup :=
  ⟨by decide,
   round_ids_nodup
     [Op.add (RawField.val 5) RawField.empty 100, Op.add (RawField.val 3) (RawField.val 2) 101]
     (by decide)⟩

/-- The tail-of-ledger invariant is preserved along any run: every round
beyond the first position has `isDouble = false`. -/
lemma dbl_preserved (ops : List Op) : ∀ s : PersistedState,
    (∀ r ∈ s.rounds.drop 1, r.isDouble = false) →
    ∀ r ∈ (runOps s ops).rounds.drop 1, r.isDouble = false := by
  induction ops with
  | nil =>
    intro s h
    exact h
  | cons op rest ih =>
    intro s h
    refine ih (applyOp s op) ?_
    cases op with
    | add fA fB now =>
      simp only [applyOp]
      rcases addRound_rounds_cases s fA fB now with hc | hc | ⟨a, b, hc⟩
      · rw [hc]; exact h
      · rw [hc]; simp
      · rw [hc]
        cases hr : s.rounds with
        | nil => simp [hr]
        | cons hd tl =>
          have hnd : (nextRoundOf s a b now).isDouble = false := by
            simp [nextRoundOf, hr]
          intro r hmem
          simp only [List.cons_append, List.drop_succ_cons, List.drop_zero] at hmem
          rcases List.mem_append.mp hmem with hm | hm
          · refine h r ?_
            rw [hr]
            simpa using hm
          · have : r = nextRoundOf s a b now := by simpa using hm
            rw [this]
            exact hnd
    | undo =>
      simp only [applyOp, undoRound]
      intro r hmem
      refine h r ?_
      have heq : s.rounds.dropLast.drop 1 = (s.rounds.drop 1).take (s.rounds.length - 1 - 1) := by
        rw [List.dropLast_eq_take, List.drop_take]
      rw [heq] at hmem
      exact List.mem_of_mem_take hmem
    | reset =>
      simp [applyOp, resetCurrentGame]
    | onboard a b d =>
      simp only [applyOp]
      rw [saveOnboarding_rounds]
      exact h
    | settings a b d =>
      simp only [applyOp]
      rw [saveSettings_rounds]
      exact h

/-- Claim C10: in every state reachable from the default state by round
submissions, undo, reset and configuration changes (no import), a round
marked `isDouble` can only sit in the first ledger position, so at most one
round per ledger is marked as doubled. -/
theorem double_only_first (s : PersistedState) (h : Reachable s) :
    (∀ r ∈ s.rounds.drop 1, r.isDouble = false) ∧
    (s.rounds.filter (fun r => r.isDouble)).length ≤ 1 := by
  obtain ⟨ops, rfl⟩ := h
  have hinv := dbl_preserved ops defaultState (by simp [defaultState])
  refine ⟨hinv, ?_⟩
  cases hr : (runOps defaultState ops).rounds with
  | nil => simp
  | cons hd tl =>
    have htl : ∀ r ∈ tl, r.isDouble = false := by
      intro r hm
      refine hinv r ?_
      rw [hr]
      simpa using hm
    have hfil : tl.filter (fun r => r.isDouble) = [] := by
      refine List.filter_eq_nil_iff.mpr ?_
      intro r hm
      simp [htl r hm]
    by_cases hdd : hd.isDouble <;> simp [List.filter_cons, hdd, hfil]

/-- Claim C10 witness: a doubled first hand followed by a second hand leaves
at most one doubled round in the ledger. -/
theorem double_only_first_witness :
    ((runOps defaultState
      [Op.onboard "A" "B" true, Op.add (RawField.val 20) (RawField.val 10) 1,
       Op.add (RawField.val 10) (RawField.val 10) 2]).rounds.filter (fun r => r.isDouble)).length ≤ 1 :=
  (double_only_first _ ⟨_, rfl⟩).2

end Dominoes
